import Mathlib

/-!
Shallow embedding of the bulk customer-migration tool
(`src/app/api/.../route.ts` = `src/unnamed/part_000` first revision,
`src/lib/stripe-utils.ts`, `src/lib/team-api.ts`).

Remote systems (Stripe, the team-provisioning endpoint) are modelled as
explicit parameters: each wrapped remote call becomes a function argument
supplying the outcome the remote system would produce.  The orchestrator
additionally produces a trace of batch dispatches and delays, so that the
batching / delay behaviour of the source loops is observable.
-/

/-- The closed status taxonomy of `ProcessResult.status`
    (`src/lib/stripe-utils.ts`, interface `ProcessResult`). -/
inductive Status
  | success
  | customer_not_found
  | cancel_failed
  | subscription_failed
  | team_creation_failed
deriving DecidableEq, Repr

/-- Interface `CustomerData` (`src/lib/stripe-utils.ts`). -/
structure CustomerData where
  kindeId : String
  email : String
  teamName : String
deriving DecidableEq, Repr

/-- The fields of a Stripe customer object that the code reads. -/
structure StripeCustomer where
  id : String
  currency : Option String
deriving DecidableEq, Repr

/-- The fields of a Stripe subscription object that the code reads. -/
structure StripeSubscription where
  id : String
  currency : Option String
deriving DecidableEq, Repr

/-- Interface `TeamCreationResult` (`src/lib/team-api.ts`).  `responseData` is kept
    abstract as an optional string. -/
structure TeamCreationResult where
  success : Bool
  teamId : Option String := none
  error : Option String := none
  status : Option Nat := none
  responseData : Option String := none
deriving DecidableEq, Repr

/-- Interface `ProcessResult` (`src/lib/stripe-utils.ts`). -/
structure ProcessResult where
  kindeId : String
  email : String
  teamName : String
  customerId : Option String := none
  subscriptionId : Option String := none
  teamId : Option String := none
  oldCurrency : Option String := none
  newCurrency : Option String := none
  subscriptionCurrency : Option String := none
  startDate : Option String := none
  coupon : Option String := none
  status : Status
  error : Option String := none
  teamError : Option String := none
  teamStatus : Option Nat := none
  teamResponseData : Option String := none
deriving DecidableEq, Repr

/- ===========================================================
   Billing rate-limit retry wrapper (`withRetry`, stripe-utils.ts 8-31)
   =========================================================== -/

/-- An error raised by a wrapped Stripe operation.  `rateLimit` stands for
    an error with `error.type === StripeRateLimitError`; `other` for any
    other thrown error; `maxRetries` for the wrapper's own
    `new Error(Max retries reached)`. -/
inductive StripeErr
  | rateLimit
  | other (msg : String)
  | maxRetries
deriving DecidableEq, Repr

/-- Outcome of one attempt of a wrapped operation. -/
inductive StripeOutcome (T : Type) where
  | ok (t : T)
  | err (e : StripeErr)
deriving DecidableEq, Repr

/-- Result of `withRetry`: the value returned, or the error that escapes. -/
inductive RetryResult (T : Type) where
  | ok (t : T)
  | raised (e : StripeErr)
deriving DecidableEq, Repr

/-- The loop body of `withRetry` (stripe-utils.ts 13-28).  `op n` is what the
    wrapped operation does on its `n`-th call.  Returns the final result and
    the list of backoff delays slept (in ms).  `fuel` counts the remaining
    loop iterations (`maxRetries - attempt + 1`); exhausting it corresponds
    to falling through the `for` loop to the final
    `throw new Error(Max retries reached)` (line 30). -/
def withRetryGo (op : Nat → StripeOutcome T) (maxRetries baseDelay : Nat) :
    Nat → Nat → RetryResult T × List Nat
  | _, 0 => (RetryResult.raised StripeErr.maxRetries, [])
  | attempt, fuel + 1 =>
    match op attempt with
    | StripeOutcome.ok t => (RetryResult.ok t, [])
    | StripeOutcome.err e =>
      if e = StripeErr.rateLimit ∧ attempt < maxRetries then
        let delay := baseDelay * 2 ^ (attempt - 1)
        let rest := withRetryGo op maxRetries baseDelay (attempt + 1) fuel
        (rest.1, delay :: rest.2)
      else
        (RetryResult.raised e, [])

/-- Function `withRetry(operation, maxRetries, baseDelay)` (stripe-utils.ts 8-31). -/
def withRetry (op : Nat → StripeOutcome T) (maxRetries : Nat) (baseDelay : Nat) :
    RetryResult T × List Nat :=
  withRetryGo op maxRetries baseDelay 1 maxRetries

/- ===========================================================
   Billing client (`stripe-utils.ts`)
   =========================================================== -/

/-- Function `findCustomerByEmail` (stripe-utils.ts 171-192): runs the search through
    `withRetry` (cap 3, base delay 1000); on results takes `data[0]`, on zero
    results returns `null`, and the surrounding `catch` also returns `null`
    on any error. -/
def findCustomerByEmail (searchOp : Nat → StripeOutcome (List StripeCustomer)) :
    Option StripeCustomer :=
  match (withRetry searchOp 3 1000).1 with
  | RetryResult.ok customers => customers.head?
  | RetryResult.raised _ => none

/-- Status of a Stripe subscription, as far as the code distinguishes them. -/
inductive SubStatus
  | active
  | trialing
  | past_due
  | canceled
deriving DecidableEq, Repr

/-- A subscription as listed by Stripe for one customer. -/
structure SSub where
  id : String
  status : SubStatus
deriving DecidableEq, Repr

/-- The subscriptions that `cancelActiveSubscriptions`
    (stripe-utils.ts 194-227) actually attempts to cancel: the listing is
    issued with `status: active` and `limit: 10`. -/
def attemptedSubs (subs : List SSub) : List SSub :=
  (subs.filter (fun s => s.status == SubStatus.active)).take 10

/-- Function `cancelActiveSubscriptions` (stripe-utils.ts 194-227, current revision).
    `subs` is the customer's full subscription list; `listOk` is whether the
    (retry-wrapped) listing call succeeds; `cancelOk i` is whether the
    (retry-wrapped) cancellation of subscription `i` succeeds (its per-item
    `catch` maps a failure to `false`).  Returns `true` only if every
    attempted cancellation succeeded; the outer `catch` maps a listing
    failure to `false`. -/
def cancelActiveSubscriptions (subs : List SSub) (listOk : Bool)
    (cancelOk : String → Bool) : Bool :=
  if listOk = false then false
  else
    let listed := attemptedSubs subs
    if listed.isEmpty then true
    else (listed.map (fun s => cancelOk s.id)).all (fun b => b)

/-- The subscriptions in the states named by the spec that would remain
    uncancelled after a run of the current `cancelActiveSubscriptions`:
    those in states {active, trialing, past_due} that were not both
    attempted and successfully cancelled. -/
def remainingActiveLike (subs : List SSub) (cancelOk : String → Bool) :
    List SSub :=
  subs.filter (fun s =>
    (s.status == SubStatus.active || s.status == SubStatus.trialing ||
      s.status == SubStatus.past_due) &&
    !(decide (s ∈ attemptedSubs subs) && cancelOk s.id))

/-- The older revision of `cancelActiveSubscriptions`
    (stripe-utils.ts 544-583): lists with `status: all`, filters to
    {active, trialing, past_due}, cancels sequentially with no per-item
    `catch`, so the first cancellation error aborts the remaining ones via
    the outer `catch`.  `cancelThrows i = true` means cancelling `i` throws.
    The sequential `for` loop, returning also the ids actually attempted: -/
def cancelOldLoop (cancelThrows : String → Bool) :
    List SSub → Bool × List String
  | [] => (true, [])
  | s :: rest =>
    if cancelThrows s.id then (false, [s.id])
    else
      let r := cancelOldLoop cancelThrows rest
      (r.1, s.id :: r.2)

def cancelActiveSubscriptionsOld (subs : List SSub) (listOk : Bool)
    (cancelThrows : String → Bool) : Bool × List String :=
  if listOk = false then (false, [])
  else
    let activeSubs := subs.filter (fun s =>
      s.status == SubStatus.active || s.status == SubStatus.trialing ||
        s.status == SubStatus.past_due)
    cancelOldLoop cancelThrows activeSubs

/- ===========================================================
   Team client (`team-api.ts`)
   =========================================================== -/

/-- The `detail` field of a team-endpoint response body: either a JSON
    string or some non-string value (an object), whose optional `msg` field
    and `JSON.stringify` rendering are recorded. -/
inductive TeamDetail
  | str (s : String)
  | obj (msg : Option String) (stringified : String)
deriving DecidableEq, Repr

/-- The fields of a team-endpoint response body that `createTeam` reads. -/
structure TeamBody where
  id : Option String := none
  detail : Option TeamDetail := none
  message : Option String := none
deriving DecidableEq, Repr

/-- What one HTTP exchange with the team endpoint produced.  With
    `validateStatus: () => true` every HTTP response resolves normally
    (`response`); `errorWithResponse` is an axios error still carrying a
    response; `transportError` is an axios error without one (timeout,
    network failure), carrying only `error.message`. -/
inductive TeamHttpResult
  | response (status : Nat) (body : Option TeamBody)
  | errorWithResponse (status : Nat) (body : Option TeamBody)
  | transportError (msg : String)
deriving DecidableEq, Repr

/-- JavaScript truthiness of an optional string field (absent or the empty
    string are falsy). -/
def strTruthy : Option String → Bool
  | some s => s ≠ ""
  | none => false

/-- The chain `body?.detail?.msg`: the `msg` field, when `detail` is an object. -/
def detailMsg : Option TeamDetail → Option String
  | some (TeamDetail.obj m _) => m
  | _ => none

/-- JavaScript truthiness of `body?.detail`. -/
def detailTruthy : Option TeamDetail → Bool
  | some (TeamDetail.str s) => s ≠ ""
  | some (TeamDetail.obj _ _) => true
  | none => false

/-- The error-message extraction chain of `createTeam`
    (team-api.ts 82-94 and 111-123): `detail.msg`, else `detail` (the string
    itself, or `JSON.stringify` of a non-string), else `message`, else
    `HTTP status`. -/
def extractErrorMessage (status : Nat) (body : Option TeamBody) : String :=
  match body with
  | none => "HTTP " ++ toString status
  | some b =>
    if strTruthy (detailMsg b.detail) then (detailMsg b.detail).getD ""
    else if detailTruthy b.detail then
      match b.detail with
      | some (TeamDetail.str s) => s
      | some (TeamDetail.obj _ stringified) => stringified
      | none => "HTTP " ++ toString status
    else if strTruthy b.message then b.message.getD ""
    else "HTTP " ++ toString status

/-- Function `createTeam` (team-api.ts 46-141), as a function of the HTTP exchange
    outcome.  Any 2xx response is a success carrying `response.data.id`;
    any other status is a structured failure with the extracted message;
    an axios error with a response gets the same extraction; one without a
    response yields `error.message` and status 0. -/
def createTeam : TeamHttpResult → TeamCreationResult
  | TeamHttpResult.response status body =>
    if 200 ≤ status ∧ status < 300 then
      { success := true
        teamId := body.bind (fun b => b.id)
        responseData := some "response.data" }
    else
      { success := false
        error := some (extractErrorMessage status body)
        status := some status
        responseData := some "response.data" }
  | TeamHttpResult.errorWithResponse status body =>
      { success := false
        error := some (extractErrorMessage status body)
        status := some status
        responseData := some "error.response.data" }
  | TeamHttpResult.transportError msg =>
      { success := false
        error := some msg
        status := some 0 }

/-- The loop of `createTeamWithRetry` (team-api.ts 144-166).  `ct n` is the
    result of the `n`-th call to `createTeam`; `calls` counts calls made so
    far; `fuel` is the number of remaining loop iterations.  When the loop
    is exhausted the source runs `return await createTeam(...)` — one
    further, fresh call. -/
def createTeamWithRetryGo (ct : Nat → TeamCreationResult) :
    Nat → Nat → TeamCreationResult × Nat
  | calls, 0 => (ct (calls + 1), calls + 1)
  | calls, fuel + 1 =>
    let r := ct (calls + 1)
    if r.success then (r, calls + 1)
    else if r.status = some 401 ∨ r.status = some 404 then (r, calls + 1)
    else createTeamWithRetryGo ct (calls + 1) fuel

/-- Function `createTeamWithRetry(kindeId, teamName, maxRetries)` (team-api.ts
    144-166): returns the final `TeamCreationResult` together with the total
    number of `createTeam` calls made. -/
def createTeamWithRetry (ct : Nat → TeamCreationResult) (maxRetries : Nat) :
    TeamCreationResult × Nat :=
  createTeamWithRetryGo ct 0 maxRetries

/- ===========================================================
   Record processor and batch orchestrator (`src/unnamed/part_000`,
   first revision: the route handler imported by the claims)
   =========================================================== -/

/-- The remote collaborators of one run, at the granularity the route
    handler sees them: each wrapped client call is a total function (every
    client function catches internally and returns a value, never throws). -/
structure Env where
  findCustomer : String → Option StripeCustomer
  cancelSubs : String → Bool
  clearObjs : String → Bool
  createSub : String → Option StripeSubscription
  createTeam : String → String → TeamCreationResult
  couponId : Option String

/-- Function `processCustomerStripe` (part_000, 14-95).  The `clearBillingObjects`
    result is discarded by the source (`const [canceled, _] = ...`); the
    surrounding `catch` is unreachable here because every awaited client
    call catches internally. -/
def processCustomerStripe (env : Env) (c : CustomerData) : ProcessResult :=
  match env.findCustomer c.email with
  | none =>
    { kindeId := c.kindeId, email := c.email, teamName := c.teamName
      status := Status.customer_not_found
      error := some "Customer not found in Stripe" }
  | some cust =>
    let oldCurrency := cust.currency
    let canceled := env.cancelSubs cust.id
    let _ := env.clearObjs cust.id
    if canceled = false then
      { kindeId := c.kindeId, email := c.email, teamName := c.teamName
        customerId := some cust.id
        oldCurrency := oldCurrency
        status := Status.cancel_failed
        error := some "Failed to cancel existing subscriptions" }
    else
      match env.createSub cust.id with
      | none =>
        { kindeId := c.kindeId, email := c.email, teamName := c.teamName
          customerId := some cust.id
          oldCurrency := oldCurrency
          status := Status.subscription_failed
          error := some "Failed to create subscription" }
      | some sub =>
        { kindeId := c.kindeId, email := c.email, teamName := c.teamName
          customerId := some cust.id
          subscriptionId := some sub.id
          oldCurrency := oldCurrency
          newCurrency := sub.currency
          subscriptionCurrency := sub.currency
          startDate := some "2025-06-15"
          coupon := env.couponId
          status := Status.success }

/-- Function `processCustomerTeamsOnly` (part_000, 97-137). -/
def processCustomerTeamsOnly (env : Env) (c : CustomerData) : ProcessResult :=
  let t := env.createTeam c.kindeId c.teamName
  if t.success then
    { kindeId := c.kindeId, email := c.email, teamName := c.teamName
      teamId := t.teamId
      status := Status.success }
  else
    { kindeId := c.kindeId, email := c.email, teamName := c.teamName
      status := Status.team_creation_failed
      error := t.error
      teamError := t.error
      teamStatus := t.status
      teamResponseData := t.responseData }

/-- The per-record body of the phase-2 team loop (part_000, 160-177):
    call `createTeam` for a billing-successful record and rewrite its
    outcome. -/
def applyTeamResult (env : Env) (r : ProcessResult) : ProcessResult :=
  let t := env.createTeam r.kindeId r.teamName
  if t.success then
    { r with teamId := t.teamId, status := Status.success }
  else
    { r with
      status := Status.team_creation_failed
      error := t.error
      teamError := t.error
      teamStatus := t.status
      teamResponseData := t.responseData }

/-- The in-place update of part_000, 182-187: find the first record with the
    same `kindeId` and replace it (`findIndex` / assignment). -/
def updateByKinde (u : ProcessResult) : List ProcessResult → List ProcessResult
  | [] => []
  | r :: rest =>
    if r.kindeId = u.kindeId then u :: rest
    else r :: updateByKinde u rest

/-- Observable orchestrator events: a batch of input records dispatched by
    the main loop, a phase-2 team batch dispatched for the given kindeIds,
    or a `setTimeout` delay of the given milliseconds. -/
inductive Event
  | batch (records : List CustomerData)
  | teamBatch (kindeIds : List String)
  | wait (ms : Nat)
deriving DecidableEq, Repr

/-- Whether an event is a main-loop batch dispatch. -/
def Event.isBatch : Event → Bool
  | Event.batch _ => true
  | _ => false

/-- The `for (let i = 0; i < customers.length; i += batchSize)` loop shared
    by all three modes of `POST` (part_000, 257-278 / 284-305 / 312-333),
    rendered as recursion on the unprocessed suffix: `slice(i, i + B)` is
    `take B`, advancing `i` by `B` is `drop B`, and `i + B < length` (the
    guard of the inter-batch delay) is `drop B ≠ []`.  `fuel` bounds the
    iteration count. -/
def runBatchesGo (proc : CustomerData → ProcessResult) (B delayMs : Nat) :
    Nat → List CustomerData → List ProcessResult × List Event
  | 0, _ => ([], [])
  | _, [] => ([], [])
  | fuel + 1, l =>
    let batch := l.take B
    let rest := runBatchesGo proc B delayMs fuel (l.drop B)
    (batch.map proc ++ rest.1,
     Event.batch batch ::
       ((if l.drop B = [] then [] else [Event.wait delayMs]) ++ rest.2))

/-- One complete main loop over `customers` with batch size `B` and
    inter-batch delay `delayMs`. -/
def runBatches (proc : CustomerData → ProcessResult) (B delayMs : Nat)
    (customers : List CustomerData) : List ProcessResult × List Event :=
  runBatchesGo proc B delayMs customers.length customers

/-- The chunking performed by the same loop: the consecutive `slice(i, i+B)`
    batches, rendered as recursion on the suffix with the same fuel. -/
def chunksGo (B : Nat) : Nat → List α → List (List α)
  | 0, _ => []
  | _, [] => []
  | fuel + 1, l => l.take B :: chunksGo B fuel (l.drop B)

/-- The batches the main loop dispatches for a given input list. -/
def chunksOf (B : Nat) (l : List α) : List (List α) :=
  chunksGo B l.length l

/-- The phase-2 team-creation loop of `processTeamCreation` (part_000,
    155-193): iterate over the billing-successful records in batches of
    `B`, call `createTeam` for each, rewrite `acc` in place by `kindeId`,
    and wait `delayMs` between batches. -/
def teamLoopGo (env : Env) (B delayMs : Nat) :
    Nat → List ProcessResult → List ProcessResult →
      List ProcessResult × List Event
  | 0, _, acc => (acc, [])
  | _, [], acc => (acc, [])
  | fuel + 1, l, acc =>
    let batch := l.take B
    let batchResults := batch.map (applyTeamResult env)
    let acc2 := batchResults.foldl (fun a u => updateByKinde u a) acc
    let rest := teamLoopGo env B delayMs fuel (l.drop B) acc2
    (rest.1,
     Event.teamBatch (batch.map (fun r => r.kindeId)) ::
       ((if l.drop B = [] then [] else [Event.wait delayMs]) ++ rest.2))

/-- Function `processTeamCreation` (part_000, 139-196): filter the billing-successful
    records; if there are none return the results unchanged with no events;
    otherwise wait 10s for propagation and run the team loop with batch
    size 3 and a 2s inter-batch delay. -/
def processTeamCreation (env : Env) (results : List ProcessResult) :
    List ProcessResult × List Event :=
  let successfulSubscriptions :=
    results.filter (fun r => r.status == Status.success)
  if successfulSubscriptions.isEmpty then (results, [])
  else
    let r := teamLoopGo env 3 2000 successfulSubscriptions.length
      successfulSubscriptions results
    (r.1, Event.wait 10000 :: r.2)

/-- The three processing modes of the route handler. -/
inductive Mode
  | stripe_only
  | teams_only
  | both
deriving DecidableEq, Repr

/-- Handler `POST` (part_000, 198-356).  `customers = none` models a request body
    whose `customers` field is missing, falsy, or not an array; the handler
    then returns the 400 error object before dispatching anything.
    Otherwise the mode picks batch size (3 for teams_only, 8 otherwise),
    delay, and processing function; `both` runs the full Stripe phase first
    and then `processTeamCreation` over its results. -/
def POST (env : Env) (mode : Mode) (customers : Option (List CustomerData)) :
    Except (Nat × String) (List ProcessResult) × List Event :=
  match customers with
  | none => (Except.error (400, "Invalid customers data"), [])
  | some cs =>
    match mode with
    | Mode.teams_only =>
      let r := runBatches (processCustomerTeamsOnly env) 3 2000 cs
      (Except.ok r.1, r.2)
    | Mode.stripe_only =>
      let r := runBatches (processCustomerStripe env) 8 1000 cs
      (Except.ok r.1, r.2)
    | Mode.both =>
      let p1 := runBatches (processCustomerStripe env) 8 1000 cs
      let p2 := processTeamCreation env p1.1
      (Except.ok p2.1, p1.2 ++ p2.2)

/- ===========================================================
   Further definitions used by the theorems
   =========================================================== -/

/-- A string field under JavaScript truthiness: absent or empty becomes
    `none`. -/
def truthyStr (o : Option String) : Option String :=
  o.bind (fun s => if s = "" then none else some s)

/-- The text the `detail` field contributes when it is truthy: the string
    itself, or the `JSON.stringify` rendering of a non-string value. -/
def detailText : Option TeamDetail → Option String
  | some (TeamDetail.str s) => if s = "" then none else some s
  | some (TeamDetail.obj _ stringified) => some stringified
  | none => none

/-- The error-message priority chain as the specification states it:
    `detail.msg` if present, otherwise `detail`, otherwise `message`,
    falling back to `HTTP status`.  Stated independently of
    `extractErrorMessage` so the two can be compared. -/
def specErrorMessage (status : Nat) (body : Option TeamBody) : String :=
  (((truthyStr (detailMsg (body.bind TeamBody.detail))).or
      (detailText (body.bind TeamBody.detail))).or
    (truthyStr (body.bind TeamBody.message))).getD ("HTTP " ++ toString status)

/-- The effect of the phase-2 rewrite on a result list, described as a pure
    map: records whose `status` is `success` and whose `kindeId` lies in `S`
    are replaced by their team-step rewrite, all others are untouched. -/
def upgradeSet (env : Env) (S : List String) (base : List ProcessResult) :
    List ProcessResult :=
  base.map (fun r =>
    if r.status = Status.success ∧ r.kindeId ∈ S then applyTeamResult env r
    else r)

/- Concrete fixtures for witnesses and counterexamples. -/

/-- A team endpoint answer: HTTP 500. -/
def fail500W : TeamCreationResult :=
  { success := false, error := some "HTTP 500", status := some 500 }

/-- A team endpoint answer: HTTP 404. -/
def fail404W : TeamCreationResult :=
  { success := false, error := some "User not found", status := some 404 }

/-- A billing-successful outcome record. -/
def rSuccW : ProcessResult :=
  { kindeId := "k1", email := "a@x.com", teamName := "TeamA"
    customerId := some "cus_1", subscriptionId := some "sub_1"
    status := Status.success }

/-- A customer whose team endpoint persistently answers 404. -/
def env404W : Env :=
  { findCustomer := fun _ => none, cancelSubs := fun _ => true
    clearObjs := fun _ => true, createSub := fun _ => none
    createTeam := fun _ _ => (createTeamWithRetry (fun _ => fail404W) 2).1
    couponId := none }

/-- A customer with a single trialing subscription. -/
def trialSubW : SSub := { id := "sub_trial", status := SubStatus.trialing }

/-- A search operation that always throws a non-rate-limit error. -/
def opErrW : Nat → StripeOutcome (List StripeCustomer) :=
  fun _ => StripeOutcome.err (StripeErr.other "boom")

/-- An environment whose customer lookup is the erroring search. -/
def envC10W : Env :=
  { findCustomer := fun _ => findCustomerByEmail opErrW
    cancelSubs := fun _ => true, clearObjs := fun _ => true
    createSub := fun _ => none
    createTeam := fun _ _ => fail500W, couponId := none }

/-- An operation that is rate-limited on its first two attempts and
    succeeds on the third. -/
def opC5W : Nat → StripeOutcome Nat :=
  fun j => if j < 3 then StripeOutcome.err StripeErr.rateLimit
    else StripeOutcome.ok 42

def custW1 : CustomerData := { kindeId := "k1", email := "a@x", teamName := "TA" }
def custW2 : CustomerData := { kindeId := "k2", email := "b@x", teamName := "TB" }
def custW3 : CustomerData := { kindeId := "k3", email := "c@x", teamName := "TC" }
def custW4 : CustomerData := { kindeId := "k4", email := "d@x", teamName := "TD" }
def custW5 : CustomerData := { kindeId := "k5", email := "e@x", teamName := "TE" }

/-- A mixed environment: lookups fail for `b@x` and `d@x`, team creation
    fails for `k5`, everything else succeeds. -/
def envW : Env :=
  { findCustomer := fun e =>
      if e = "b@x" ∨ e = "d@x" then none
      else some { id := "cus_" ++ e, currency := some "usd" }
    cancelSubs := fun _ => true
    clearObjs := fun _ => true
    createSub := fun i => some { id := "sub_" ++ i, currency := some "cad" }
    createTeam := fun k _ =>
      if k = "k5" then fail500W
      else { success := true, teamId := some ("team_" ++ k) }
    couponId := some "COUP" }

/-- An environment whose team endpoint always fails. -/
def envTeamFailW : Env :=
  { findCustomer := fun _ => none, cancelSubs := fun _ => true
    clearObjs := fun _ => true, createSub := fun _ => none
    createTeam := fun _ _ => fail500W, couponId := none }

/-- An active subscription. -/
def activeSubW : SSub := { id := "sub_act", status := SubStatus.active }

/-- A second active subscription. -/
def subBW : SSub := { id := "sub_b", status := SubStatus.active }

/-- The outcome the teams_only run of `envTeamFailW` produces for
    `custW1`. -/
def rFailTeamsW : ProcessResult :=
  { kindeId := "k1", email := "a@x", teamName := "TA"
    status := Status.team_creation_failed
    error := some "HTTP 500", teamError := some "HTTP 500"
    teamStatus := some 500 }

/-- The outcome the combined-mode run of `envW` produces for `custW1`. -/
def rOkW : ProcessResult :=
  { kindeId := "k1", email := "a@x", teamName := "TA"
    customerId := some "cus_a@x", subscriptionId := some "sub_cus_a@x"
    teamId := some "team_k1"
    oldCurrency := some "usd", newCurrency := some "cad"
    subscriptionCurrency := some "cad", startDate := some "2025-06-15"
    coupon := some "COUP", status := Status.success }

/- ===========================================================
   Theorems: the rate-limit retry wrapper
   =========================================================== -/

theorem withRetryGo_allRL {T : Type} (op : Nat → StripeOutcome T) (n base : Nat)
    (h : ∀ j, op j = StripeOutcome.err StripeErr.rateLimit) :
    ∀ fuel a, a + fuel = n + 1 → 1 ≤ a → a ≤ n →
      withRetryGo op n base a fuel =
        (RetryResult.raised StripeErr.rateLimit,
         (List.range (n - a)).map (fun i => base * 2 ^ (a - 1 + i))) := by
  intro fuel
  induction fuel with
  | zero => intro a ha h1 han; omega
  | succ fuel ih =>
    intro a ha h1 han
    by_cases hlt : a < n
    · have ih2 := ih (a + 1) (by omega) (by omega) (by omega)
      simp only [withRetryGo, h a, hlt, and_true, ih2, if_true,
        eq_self_iff_true, true_and, if_pos]
      refine congrArg _ ?_
      have hr : n - a = (n - (a + 1)) + 1 := by omega
      rw [hr, List.range_succ_eq_map, List.map_cons, List.map_map]
      refine congrArg₂ _ (by simp) ?_
      refine List.map_congr_left ?_
      intro i _
      show base * 2 ^ (a + 1 - 1 + i) = base * 2 ^ (a - 1 + (i + 1))
      have he : a + 1 - 1 + i = a - 1 + (i + 1) := by omega
      rw [he]
    · have hn : n - a = 0 := by omega
      simp [withRetryGo, h a, hlt, hn]

theorem withRetryGo_reach {T : Type} (op : Nat → StripeOutcome T)
    (n base k : Nat) (hk : k ≤ n)
    (hrl : ∀ j, 1 ≤ j → j < k → op j = StripeOutcome.err StripeErr.rateLimit) :
    ∀ fuel a, a + fuel = n + 1 → 1 ≤ a → a ≤ k →
      withRetryGo op n base a fuel =
        ((withRetryGo op n base k (n + 1 - k)).1,
         ((List.range (k - a)).map (fun i => base * 2 ^ (a - 1 + i))) ++
           (withRetryGo op n base k (n + 1 - k)).2) := by
  intro fuel
  induction fuel with
  | zero => intro a ha h1 hak; omega
  | succ fuel ih =>
    intro a ha h1 hak
    by_cases heq : a = k
    · subst heq
      have hf : fuel + 1 = n + 1 - a := by omega
      rw [hf]
      simp
    · have hlt : a < k := by omega
      have ih2 := ih (a + 1) (by omega) (by omega) (by omega)
      simp only [withRetryGo, hrl a h1 hlt, show a < n by omega, and_true,
        ih2, if_true, eq_self_iff_true, true_and, if_pos]
      refine congrArg _ ?_
      have hr : k - a = (k - (a + 1)) + 1 := by omega
      rw [hr, List.range_succ_eq_map, List.map_cons, List.map_map,
        List.cons_append]
      refine congrArg₂ _ (by simp) ?_
      refine congrArg₂ _ ?_ rfl
      refine List.map_congr_left ?_
      intro i _
      show base * 2 ^ (a + 1 - 1 + i) = base * 2 ^ (a - 1 + (i + 1))
      have he : a + 1 - 1 + i = a - 1 + (i + 1) := by omega
      rw [he]

theorem withRetryGo_stop_ok {T : Type} (op : Nat → StripeOutcome T)
    (n base k fuel : Nat) (t : T) (hok : op k = StripeOutcome.ok t) :
    withRetryGo op n base k (fuel + 1) = (RetryResult.ok t, []) := by
  simp [withRetryGo, hok]

theorem withRetryGo_stop_err {T : Type} (op : Nat → StripeOutcome T)
    (n base k fuel : Nat) (e : StripeErr) (he : e ≠ StripeErr.rateLimit)
    (hop : op k = StripeOutcome.err e) :
    withRetryGo op n base k (fuel + 1) = (RetryResult.raised e, []) := by
  simp [withRetryGo, hop, he]

/-- C5 (amended).  For every operation passed through the billing
    rate-limit retry wrapper with cap `n`: while rate-limited it is retried
    with exponential backoff whose delay doubles each attempt
    (`base * 2 ^ i` before attempt `i + 2`), up to the cap of `n` attempts;
    an attempt returning a value ends the loop with that value; any
    non-rate-limit error propagates immediately with no further attempt;
    and when the cap is exhausted while still rate-limited, the wrapper
    re-raises the final rate-limit error itself (the wrapper's own
    `Max retries reached` failure is unreachable for a positive cap). -/
theorem withRetry_backoff_policy {T : Type} (op : Nat → StripeOutcome T)
    (n base k : Nat) (h1 : 1 ≤ k) (hkn : k ≤ n)
    (hrl : ∀ j, 1 ≤ j → j < k → op j = StripeOutcome.err StripeErr.rateLimit) :
    (∀ t, op k = StripeOutcome.ok t →
      withRetry op n base =
        (RetryResult.ok t, (List.range (k - 1)).map (fun i => base * 2 ^ i))) ∧
    (∀ e, e ≠ StripeErr.rateLimit → op k = StripeOutcome.err e →
      withRetry op n base =
        (RetryResult.raised e,
         (List.range (k - 1)).map (fun i => base * 2 ^ i))) ∧
    ((∀ j, op j = StripeOutcome.err StripeErr.rateLimit) →
      withRetry op n base =
        (RetryResult.raised StripeErr.rateLimit,
         (List.range (n - 1)).map (fun i => base * 2 ^ i))) := by
  have hreach := withRetryGo_reach op n base k hkn hrl n 1 (by omega)
    (by omega) h1
  have hfuel : ∃ f, n + 1 - k = f + 1 := ⟨n - k, by omega⟩
  obtain ⟨f, hf⟩ := hfuel
  have hmap : ∀ m, (List.range m).map (fun i => base * 2 ^ (1 - 1 + i)) =
      (List.range m).map (fun i => base * 2 ^ i) := by
    intro m
    refine List.map_congr_left ?_
    intro i _
    norm_num
  refine ⟨?_, ?_, ?_⟩
  · intro t hok
    have hstop := withRetryGo_stop_ok op n base k f t hok
    rw [hf] at hreach
    unfold withRetry
    rw [hreach, hstop]
    simp [hmap]
  · intro e he hop
    have hstop := withRetryGo_stop_err op n base k f e he hop
    rw [hf] at hreach
    unfold withRetry
    rw [hreach, hstop]
    simp [hmap]
  · intro hall
    have := withRetryGo_allRL op n base hall n 1 (by omega) (by omega)
      (by omega)
    unfold withRetry
    rw [this]
    simp [hmap]

/-- C5 counterexample.  With cap 3 and an operation that is always
    rate-limited, the wrapper performs the two exponential-backoff waits
    and then re-raises the rate-limit error itself; it does not raise its
    `Max retries reached` failure, contrary to the claim. -/
theorem withRetry_cap_rethrows_rate_limit_cex :
    withRetry (fun _ => (StripeOutcome.err StripeErr.rateLimit :
        StripeOutcome Nat)) 3 1000 =
      (RetryResult.raised StripeErr.rateLimit, [1000, 2000]) ∧
    (RetryResult.raised StripeErr.rateLimit : RetryResult Nat) ≠
      RetryResult.raised StripeErr.maxRetries := by
  decide

/-- C5 witness: cap 3, rate-limited twice, succeeding on the third call. -/
theorem withRetry_backoff_policy_witness :
    (1 ≤ 3 ∧ 3 ≤ 3 ∧
      (∀ j, 1 ≤ j → j < 3 → opC5W j = StripeOutcome.err StripeErr.rateLimit)) ∧
    ((∀ t, opC5W 3 = StripeOutcome.ok t →
      withRetry opC5W 3 1000 =
        (RetryResult.ok t, (List.range (3 - 1)).map (fun i => 1000 * 2 ^ i))) ∧
    (∀ e, e ≠ StripeErr.rateLimit → opC5W 3 = StripeOutcome.err e →
      withRetry opC5W 3 1000 =
        (RetryResult.raised e,
         (List.range (3 - 1)).map (fun i => 1000 * 2 ^ i))) ∧
    ((∀ j, opC5W j = StripeOutcome.err StripeErr.rateLimit) →
      withRetry opC5W 3 1000 =
        (RetryResult.raised StripeErr.rateLimit,
         (List.range (3 - 1)).map (fun i => 1000 * 2 ^ i)))) :=
  ⟨⟨by decide, by decide, fun j _ h2 => by simp [opC5W, h2]⟩,
   withRetry_backoff_policy opC5W 3 1000 3 (by decide) (by decide)
     (fun j _ h2 => by simp [opC5W, h2])⟩

/-- C10.  When the retry-wrapped customer search raises any error,
    `findCustomerByEmail` swallows it and returns `null`, exactly as for a
    search with zero results, and the record processor therefore classifies
    the record as `customer_not_found`. -/
theorem findCustomerByEmail_error_as_not_found
    (op : Nat → StripeOutcome (List StripeCustomer)) (e : StripeErr)
    (h : (withRetry op 3 1000).1 = RetryResult.raised e)
    (env : Env) (c : CustomerData)
    (henv : env.findCustomer c.email = findCustomerByEmail op) :
    findCustomerByEmail op = none ∧
    findCustomerByEmail op = findCustomerByEmail (fun _ => StripeOutcome.ok []) ∧
    (processCustomerStripe env c).status = Status.customer_not_found := by
  have h1 : findCustomerByEmail op = none := by
    unfold findCustomerByEmail
    rw [h]
  refine ⟨h1, by rw [h1]; rfl, ?_⟩
  unfold processCustomerStripe
  rw [henv, h1]

/-- C10 witness: a search that always throws a non-rate-limit error. -/
theorem findCustomerByEmail_error_as_not_found_witness :
    ((withRetry opErrW 3 1000).1 = RetryResult.raised (StripeErr.other "boom") ∧
      envC10W.findCustomer custW1.email = findCustomerByEmail opErrW) ∧
    (findCustomerByEmail opErrW = none ∧
      findCustomerByEmail opErrW =
        findCustomerByEmail (fun _ => StripeOutcome.ok []) ∧
      (processCustomerStripe envC10W custW1).status =
        Status.customer_not_found) :=
  ⟨⟨by decide, rfl⟩,
   findCustomerByEmail_error_as_not_found opErrW (StripeErr.other "boom")
     (by decide) envC10W custW1 rfl⟩

/- ===========================================================
   Theorems: cancelActiveSubscriptions and the team client
   =========================================================== -/

theorem all_map_id_eq (l : List SSub) (f : SSub → Bool) :
    (l.map f).all (fun b => b) = l.all f := by
  induction l with
  | nil => rfl
  | cons s rest ih => simp [ih]

/-- C6 (amended).  The current `cancelActiveSubscriptions` lists only
    subscriptions in state `active` (capped at 10 by the listing limit),
    attempts to cancel every listed one with per-subscription failures
    caught, and returns `true` iff the listing succeeded and every
    attempted cancellation succeeded — vacuously `true` when no active
    subscription is listed; `trialing` and `past_due` subscriptions are
    never attempted. -/
theorem cancelActiveSubscriptions_characterization (subs : List SSub)
    (listOk : Bool) (cancelOk : String → Bool) :
    cancelActiveSubscriptions subs listOk cancelOk =
      (listOk && (attemptedSubs subs).all (fun s => cancelOk s.id)) ∧
    (∀ s, s ∈ attemptedSubs subs → s.status = SubStatus.active) ∧
    attemptedSubs subs =
      (subs.filter (fun s => s.status == SubStatus.active)).take 10 := by
  refine ⟨?_, ?_, rfl⟩
  · cases listOk with
    | false => simp [cancelActiveSubscriptions]
    | true =>
      cases h : attemptedSubs subs with
      | nil => simp [cancelActiveSubscriptions, h]
      | cons s rest =>
        simp [cancelActiveSubscriptions, h, all_map_id_eq]
  · intro s hs
    have h1 : s ∈ subs.filter (fun s => s.status == SubStatus.active) :=
      List.mem_of_mem_take hs
    have h2 := (List.mem_filter.mp h1).2
    exact eq_of_beq h2

/-- C6 counterexample.  A customer with a single `trialing` subscription:
    the code lists nothing, attempts no cancellation and returns `true`,
    although a subscription in state {active, trialing, past_due} remains
    afterwards — so the claimed listing of all three states and the claimed
    "true iff zero such subscriptions afterward" both fail. -/
theorem cancelActiveSubscriptions_trialing_cex :
    cancelActiveSubscriptions [trialSubW] true (fun _ => false) = true ∧
    remainingActiveLike [trialSubW] (fun _ => false) = [trialSubW] ∧
    attemptedSubs [trialSubW] = [] := by
  decide

/-- C6 witness: one active and one trialing subscription, the active one
    cancelling successfully. -/
theorem cancelActiveSubscriptions_characterization_witness :
    (cancelActiveSubscriptions [activeSubW, trialSubW] true
        (fun i => i == "sub_act") =
      (true && (attemptedSubs [activeSubW, trialSubW]).all
        (fun s => (fun i => i == "sub_act") s.id))) ∧
    (∀ s, s ∈ attemptedSubs [activeSubW, trialSubW] →
      s.status = SubStatus.active) ∧
    attemptedSubs [activeSubW, trialSubW] =
      (([activeSubW, trialSubW]).filter
        (fun s => s.status == SubStatus.active)).take 10 :=
  cancelActiveSubscriptions_characterization [activeSubW, trialSubW] true
    (fun i => i == "sub_act")

/-- A sequential-abort witness about the older revision (stripe-utils.ts
    544-583): when the first of two active subscriptions fails to cancel,
    the second is never attempted (the attempted-id list stops at the
    first), unlike the current revision's per-subscription tolerance. -/
theorem cancelActiveSubscriptionsOld_aborts :
    cancelActiveSubscriptionsOld [activeSubW, subBW] true
      (fun i => i == "sub_act") = (false, ["sub_act"]) := by
  decide

/-- C7 (code bug).  Evaluated at the failing input: with retry bound 2 and
    a team endpoint that always answers HTTP 500, `createTeamWithRetry`
    calls `createTeam` three times — the post-loop
    `return await createTeam(...)` makes one extra call beyond the bound,
    contradicting the adjacent comment "Return the last attempt result".
    The 404 part of the claim does hold: a 404 answer short-circuits after
    exactly one call, and the phase-2 rewrite then records
    `team_creation_failed` with `teamStatus = 404`. -/
theorem createTeamWithRetry_call_count_eval :
    createTeamWithRetry (fun _ => fail500W) 2 = (fail500W, 3) ∧
    createTeamWithRetry (fun _ => fail404W) 2 = (fail404W, 1) ∧
    (applyTeamResult env404W rSuccW).status = Status.team_creation_failed ∧
    (applyTeamResult env404W rSuccW).teamStatus = some 404 := by
  decide

/-- The error-message chain of `createTeam` coincides with the
    specification's priority order `detail.msg`, then `detail`, then
    `message`, with the `HTTP status` fallback. -/
theorem extractErrorMessage_eq_spec (status : Nat) (body : Option TeamBody) :
    extractErrorMessage status body = specErrorMessage status body := by
  cases body with
  | none => rfl
  | some b =>
    rcases b with ⟨id0, d0, m0⟩
    have hmsg : ∀ m : Option String,
        truthyStr m = none → m = none ∨ m = some "" := by
      intro m hm
      cases m with
      | none => exact Or.inl rfl
      | some s =>
        by_cases hs : s = ""
        · exact Or.inr (by rw [hs])
        · simp [truthyStr, hs] at hm
    cases d0 with
    | none =>
      cases m0 with
      | none => rfl
      | some m =>
        by_cases hm : m = "" <;>
          simp [extractErrorMessage, specErrorMessage, truthyStr, detailMsg,
            detailTruthy, strTruthy, detailText, hm]
    | some d =>
      cases d with
      | str s =>
        by_cases hs : s = ""
        · cases m0 with
          | none =>
            simp [extractErrorMessage, specErrorMessage, truthyStr, detailMsg,
              detailTruthy, strTruthy, detailText, hs]
          | some m =>
            by_cases hm : m = "" <;>
              simp [extractErrorMessage, specErrorMessage, truthyStr,
                detailMsg, detailTruthy, strTruthy, detailText, hs, hm]
        · simp [extractErrorMessage, specErrorMessage, truthyStr, detailMsg,
            detailTruthy, strTruthy, detailText, hs]
      | obj mm strf =>
        cases mm with
        | none =>
          simp [extractErrorMessage, specErrorMessage, truthyStr, detailMsg,
            detailTruthy, strTruthy, detailText]
        | some m =>
          by_cases hm : m = "" <;>
            simp [extractErrorMessage, specErrorMessage, truthyStr, detailMsg,
              detailTruthy, strTruthy, detailText, hm]

/-- C8.  `createTeam` succeeds exactly on an HTTP response with status in
    [200, 300); any other response — and any axios error carrying a
    response — yields a structured failure whose message follows the
    specification's priority chain with the `HTTP status` fallback, and
    whose `status` field records the HTTP status; a transport failure
    without a response is also a structured failure. -/
theorem createTeam_classification (input : TeamHttpResult) :
    ((createTeam input).success = true ↔
      ∃ status body, input = TeamHttpResult.response status body ∧
        200 ≤ status ∧ status < 300) ∧
    (∀ status body, input = TeamHttpResult.response status body →
      ¬(200 ≤ status ∧ status < 300) →
      (createTeam input).success = false ∧
      (createTeam input).error = some (specErrorMessage status body) ∧
      (createTeam input).status = some status) ∧
    (∀ status body, input = TeamHttpResult.errorWithResponse status body →
      (createTeam input).success = false ∧
      (createTeam input).error = some (specErrorMessage status body) ∧
      (createTeam input).status = some status) ∧
    (∀ msg, input = TeamHttpResult.transportError msg →
      (createTeam input).success = false ∧
      (createTeam input).error = some msg) := by
  cases input with
  | response st bd =>
    by_cases hc : 200 ≤ st ∧ st < 300
    · refine ⟨?_, ?_, ?_, ?_⟩
      · constructor
        · intro _
          exact ⟨st, bd, rfl, hc.1, hc.2⟩
        · intro _
          simp [createTeam, hc]
      · intro st2 bd2 heq hnot
        injection heq with h1 h2
        subst h1; subst h2
        exact absurd hc hnot
      · intro st2 bd2 heq
        exact absurd heq (by simp)
      · intro m heq
        exact absurd heq (by simp)
    · refine ⟨?_, ?_, ?_, ?_⟩
      · constructor
        · intro hfalse
          simp [createTeam, hc] at hfalse
        · rintro ⟨st2, bd2, heq, hlo, hhi⟩
          injection heq with h1 h2
          subst h1; subst h2
          exact (hc ⟨hlo, hhi⟩).elim
      · intro st2 bd2 heq hnot
        injection heq with h1 h2
        subst h1; subst h2
        refine ⟨?_, ?_, ?_⟩ <;>
          simp [createTeam, hc, extractErrorMessage_eq_spec]
      · intro st2 bd2 heq
        exact absurd heq (by simp)
      · intro m heq
        exact absurd heq (by simp)
  | errorWithResponse st bd =>
    refine ⟨?_, ?_, ?_, ?_⟩
    · simp [createTeam]
    · intro st2 bd2 heq
      exact absurd heq (by simp)
    · intro st2 bd2 heq
      injection heq with h1 h2
      subst h1; subst h2
      refine ⟨?_, ?_, ?_⟩ <;>
        simp [createTeam, extractErrorMessage_eq_spec]
    · intro m heq
      exact absurd heq (by simp)
  | transportError m =>
    refine ⟨by simp [createTeam], ?_, ?_, ?_⟩
    · intro st2 bd2 heq
      exact absurd heq (by simp)
    · intro st2 bd2 heq
      exact absurd heq (by simp)
    · intro m2 heq
      injection heq with h1
      subst h1
      refine ⟨?_, ?_⟩ <;> simp [createTeam]

/-- C8 witness: a 404 response whose body carries a string `detail`. -/
theorem createTeam_classification_witness :
    (createTeam (TeamHttpResult.response 404
        (some { detail := some (TeamDetail.str "User not found") }))).success
        = false ∧
    (createTeam (TeamHttpResult.response 404
        (some { detail := some (TeamDetail.str "User not found") }))).error
      = some (specErrorMessage 404
        (some { detail := some (TeamDetail.str "User not found") })) ∧
    (createTeam (TeamHttpResult.response 404
        (some { detail := some (TeamDetail.str "User not found") }))).status
      = some 404 :=
  (createTeam_classification (TeamHttpResult.response 404
      (some { detail := some (TeamDetail.str "User not found") }))).2.1
    404 (some { detail := some (TeamDetail.str "User not found") }) rfl
    (by decide)

/- ===========================================================
   Theorems: record processor field facts
   =========================================================== -/

theorem processCustomerStripe_base (env : Env) (c : CustomerData) :
    (processCustomerStripe env c).kindeId = c.kindeId ∧
    (processCustomerStripe env c).email = c.email ∧
    (processCustomerStripe env c).teamName = c.teamName ∧
    (processCustomerStripe env c).teamId = none ∧
    (processCustomerStripe env c).status ≠ Status.team_creation_failed := by
  unfold processCustomerStripe
  cases env.findCustomer c.email with
  | none => exact ⟨rfl, rfl, rfl, rfl, fun h => Status.noConfusion h⟩
  | some cust =>
    dsimp only
    split
    · exact ⟨rfl, rfl, rfl, rfl, fun h => Status.noConfusion h⟩
    · cases env.createSub cust.id with
      | none => exact ⟨rfl, rfl, rfl, rfl, fun h => Status.noConfusion h⟩
      | some sub => exact ⟨rfl, rfl, rfl, rfl, fun h => Status.noConfusion h⟩

theorem processCustomerStripe_success_refs (env : Env) (c : CustomerData) :
    (processCustomerStripe env c).status = Status.success →
    (processCustomerStripe env c).customerId.isSome = true ∧
    (processCustomerStripe env c).subscriptionId.isSome = true := by
  unfold processCustomerStripe
  cases env.findCustomer c.email with
  | none => intro h; exact absurd h (fun hh => Status.noConfusion hh)
  | some cust =>
    dsimp only
    split
    · intro h; exact absurd h (fun hh => Status.noConfusion hh)
    · cases env.createSub cust.id with
      | none => intro h; exact absurd h (fun hh => Status.noConfusion hh)
      | some sub => intro _; exact ⟨rfl, rfl⟩

theorem processCustomerTeamsOnly_base (env : Env) (c : CustomerData) :
    (processCustomerTeamsOnly env c).kindeId = c.kindeId ∧
    (processCustomerTeamsOnly env c).email = c.email ∧
    (processCustomerTeamsOnly env c).teamName = c.teamName ∧
    ((processCustomerTeamsOnly env c).status = Status.success ∨
      (processCustomerTeamsOnly env c).status = Status.team_creation_failed) := by
  unfold processCustomerTeamsOnly
  dsimp only
  split
  · exact ⟨rfl, rfl, rfl, Or.inl rfl⟩
  · exact ⟨rfl, rfl, rfl, Or.inr rfl⟩

theorem applyTeamResult_fields (env : Env) (r : ProcessResult) :
    (applyTeamResult env r).kindeId = r.kindeId ∧
    (applyTeamResult env r).customerId = r.customerId ∧
    (applyTeamResult env r).subscriptionId = r.subscriptionId ∧
    ((applyTeamResult env r).status = Status.success ∨
      (applyTeamResult env r).status = Status.team_creation_failed) := by
  unfold applyTeamResult
  dsimp only
  split
  · exact ⟨rfl, rfl, rfl, Or.inl rfl⟩
  · exact ⟨rfl, rfl, rfl, Or.inr rfl⟩

theorem applyTeamResult_kindeId (env : Env) (r : ProcessResult) :
    (applyTeamResult env r).kindeId = r.kindeId :=
  (applyTeamResult_fields env r).1

/- ===========================================================
   Theorems: the batching loop
   =========================================================== -/

theorem runBatchesGo_nil (proc : CustomerData → ProcessResult) (B d : Nat) :
    ∀ fuel, runBatchesGo proc B d fuel [] = ([], []) := by
  intro fuel
  cases fuel <;> rfl

theorem chunksGo_nil {α : Type} (B : Nat) :
    ∀ fuel, chunksGo B fuel ([] : List α) = [] := by
  intro fuel
  cases fuel <;> rfl

theorem intersperse_cons_cons {α : Type} (sep x y : α) (l : List α) :
    List.intersperse sep (x :: y :: l) =
      x :: sep :: List.intersperse sep (y :: l) := rfl

theorem mem_intersperse {α : Type} (sep : α) :
    ∀ (l : List α) (x : α), x ∈ List.intersperse sep l → x = sep ∨ x ∈ l := by
  intro l
  induction l with
  | nil => intro x hx; simp [List.intersperse] at hx
  | cons a l2 ih =>
    intro x hx
    cases l2 with
    | nil =>
      simp [List.intersperse] at hx
      exact Or.inr (by simp [hx])
    | cons b l3 =>
      rw [intersperse_cons_cons] at hx
      rcases List.mem_cons.mp hx with h | hx2
      · exact Or.inr (by simp [h])
      · rcases List.mem_cons.mp hx2 with h | hx3
        · exact Or.inl h
        · rcases ih x hx3 with h | h
          · exact Or.inl h
          · exact Or.inr (List.mem_cons_of_mem a h)

theorem runBatchesGo_fst (proc : CustomerData → ProcessResult) (B d : Nat)
    (hB : 1 ≤ B) :
    ∀ fuel l, l.length ≤ fuel →
      (runBatchesGo proc B d fuel l).1 = l.map proc := by
  intro fuel
  induction fuel with
  | zero =>
    intro l hl
    have hnil := List.eq_nil_of_length_eq_zero (Nat.le_zero.mp hl)
    subst hnil
    rfl
  | succ fuel ih =>
    intro l hl
    cases l with
    | nil => rfl
    | cons a l2 =>
      simp only [runBatchesGo]
      rw [ih ((a :: l2).drop B)
        (by rw [List.length_drop]; simp only [List.length_cons] at hl ⊢; omega)]
      rw [← List.map_append, List.take_append_drop]

theorem runBatchesGo_snd (proc : CustomerData → ProcessResult) (B d : Nat)
    (hB : 1 ≤ B) :
    ∀ fuel l, l.length ≤ fuel →
      (runBatchesGo proc B d fuel l).2 =
        List.intersperse (Event.wait d)
          ((chunksGo B fuel l).map Event.batch) := by
  intro fuel
  induction fuel with
  | zero =>
    intro l hl
    have hnil := List.eq_nil_of_length_eq_zero (Nat.le_zero.mp hl)
    subst hnil
    rfl
  | succ fuel ih =>
    intro l hl
    cases l with
    | nil => rfl
    | cons a l2 =>
      simp only [runBatchesGo, chunksGo]
      by_cases hdrop : (a :: l2).drop B = []
      · rw [hdrop, runBatchesGo_nil, chunksGo_nil]
        simp [List.intersperse]
      · have hlen : ((a :: l2).drop B).length ≤ fuel := by
          rw [List.length_drop]
          simp only [List.length_cons] at hl ⊢
          omega
        rw [ih _ hlen]
        obtain ⟨x, xs, hx⟩ : ∃ x xs, (a :: l2).drop B = x :: xs := by
          cases hd : (a :: l2).drop B with
          | nil => exact absurd hd hdrop
          | cons x xs => exact ⟨x, xs, rfl⟩
        obtain ⟨f2, hf2⟩ : ∃ f2, fuel = f2 + 1 := by
          cases fuel with
          | zero =>
            rw [hx] at hlen
            simp at hlen
          | succ f2 => exact ⟨f2, rfl⟩
        rw [hx, hf2]
        simp only [chunksGo, List.map_cons]
        rw [intersperse_cons_cons]
        simp [hx]

theorem chunksGo_eq_ranges {α : Type} (B : Nat) (hB : 1 ≤ B) :
    ∀ fuel (l : List α), l.length ≤ fuel →
      chunksGo B fuel l =
        (List.range ((l.length + B - 1) / B)).map
          (fun k => (l.drop (k * B)).take B) := by
  intro fuel
  induction fuel with
  | zero =>
    intro l hl
    have hnil := List.eq_nil_of_length_eq_zero (Nat.le_zero.mp hl)
    subst hnil
    have hz : (([] : List α).length + B - 1) / B = 0 :=
      Nat.div_eq_of_lt (by simp; omega)
    rw [hz]
    rfl
  | succ fuel ih =>
    intro l hl
    cases l with
    | nil =>
      have hz : (([] : List α).length + B - 1) / B = 0 :=
        Nat.div_eq_of_lt (by simp; omega)
      rw [hz]
      rfl
    | cons a l2 =>
      simp only [chunksGo]
      rw [ih ((a :: l2).drop B)
        (by rw [List.length_drop]; simp only [List.length_cons] at hl ⊢; omega)]
      rw [List.length_drop]
      have hq : ((a :: l2).length + B - 1) / B =
          ((a :: l2).length - B + B - 1) / B + 1 := by
        have hsplit : (a :: l2).length + B - 1 = ((a :: l2).length - 1) + B := by
          simp only [List.length_cons]
          omega
        rw [hsplit, Nat.add_div_right _ (by omega)]
        congr 1
        by_cases hNB : (a :: l2).length ≤ B
        · rw [Nat.div_eq_of_lt
            (by simp only [List.length_cons] at hNB ⊢; omega)]
          rw [Nat.div_eq_of_lt
            (by simp only [List.length_cons] at hNB ⊢; omega)]
        · congr 1
          simp only [List.length_cons] at hNB ⊢
          omega
      rw [hq, List.range_succ_eq_map, List.map_cons, List.map_map]
      congr 1
      · simp
      · refine List.map_congr_left ?_
        intro k _
        show (((a :: l2).drop B).drop (k * B)).take B =
          ((a :: l2).drop (Nat.succ k * B)).take B
        rw [List.drop_drop]
        rw [Nat.succ_mul, Nat.add_comm B (k * B)]

theorem chunksGo_sub {α : Type} (B : Nat) :
    ∀ fuel (l : List α) b, b ∈ chunksGo B fuel l → ∀ x ∈ b, x ∈ l := by
  intro fuel
  induction fuel with
  | zero =>
    intro l b hb
    simp [chunksGo] at hb
  | succ fuel ih =>
    intro l b hb x hx
    cases l with
    | nil => simp [chunksGo_nil] at hb
    | cons a l2 =>
      simp only [chunksGo, List.mem_cons] at hb
      rcases hb with hb | hb
      · subst hb
        exact List.mem_of_mem_take hx
      · exact List.mem_of_mem_drop (ih _ b hb x hx)

/- ===========================================================
   Theorems: the phase-2 in-place rewrite
   =========================================================== -/

theorem upgradeSet_nil_set (env : Env) (base : List ProcessResult) :
    upgradeSet env [] base = base := by
  unfold upgradeSet
  have h : ∀ r ∈ base,
      (if r.status = Status.success ∧ r.kindeId ∈ ([] : List String) then
        applyTeamResult env r else r) = r := by
    intro r _
    rw [if_neg (fun hc => List.not_mem_nil _ hc.2)]
  rw [List.map_congr_left h, List.map_id']

theorem upgradeSet_map_kindeId (env : Env) (S : List String)
    (base : List ProcessResult) :
    (upgradeSet env S base).map (fun r => r.kindeId) =
      base.map (fun r => r.kindeId) := by
  unfold upgradeSet
  rw [List.map_map]
  refine List.map_congr_left ?_
  intro r _
  show (if r.status = Status.success ∧ r.kindeId ∈ S then
      applyTeamResult env r else r).kindeId = r.kindeId
  split
  · exact applyTeamResult_kindeId env r
  · rfl

theorem upgradeSet_congr (env : Env) (S T : List String)
    (base : List ProcessResult) (h : ∀ x, x ∈ S ↔ x ∈ T) :
    upgradeSet env S base = upgradeSet env T base := by
  unfold upgradeSet
  refine List.map_congr_left ?_
  intro r _
  by_cases hs : r.status = Status.success ∧ r.kindeId ∈ S
  · rw [if_pos hs, if_pos ⟨hs.1, (h _).mp hs.2⟩]
  · rw [if_neg hs, if_neg (fun hc => hs ⟨hc.1, (h _).mpr hc.2⟩)]

theorem upgradeSet_skip (env : Env) (id0 : String) (S : List String)
    (base : List ProcessResult)
    (h : id0 ∉ base.map (fun r => r.kindeId)) :
    upgradeSet env (id0 :: S) base = upgradeSet env S base := by
  unfold upgradeSet
  refine List.map_congr_left ?_
  intro r hr
  have hne : r.kindeId ≠ id0 :=
    fun he => h (he ▸ List.mem_map_of_mem (fun r => r.kindeId) hr)
  by_cases hs : r.status = Status.success ∧ r.kindeId ∈ S
  · rw [if_pos ⟨hs.1, List.mem_cons_of_mem _ hs.2⟩, if_pos hs]
  · rw [if_neg, if_neg hs]
    intro hc
    rcases List.mem_cons.mp hc.2 with he | hm
    · exact hne he
    · exact hs ⟨hc.1, hm⟩

theorem updateByKinde_upgrade (env : Env) :
    ∀ (base : List ProcessResult) (S : List String) (s : ProcessResult),
      (base.map (fun r => r.kindeId)).Nodup → s ∈ base →
      s.status = Status.success → s.kindeId ∉ S →
      updateByKinde (applyTeamResult env s) (upgradeSet env S base) =
        upgradeSet env (s.kindeId :: S) base := by
  intro base
  induction base with
  | nil =>
    intro S s _ hs
    exact absurd hs (List.not_mem_nil s)
  | cons r rest ih =>
    intro S s hnd hs hst hns
    have hnd2 : (rest.map (fun r => r.kindeId)).Nodup :=
      (List.nodup_cons.mp hnd).2
    have hrn : r.kindeId ∉ rest.map (fun x => x.kindeId) :=
      (List.nodup_cons.mp hnd).1
    by_cases hid : r.kindeId = s.kindeId
    · have hsr : s = r := by
        rcases List.mem_cons.mp hs with he | hm
        · exact he
        · exfalso
          apply hrn
          rw [hid]
          exact List.mem_map_of_mem _ hm
      subst hsr
      simp only [upgradeSet, List.map_cons]
      rw [if_neg (fun hc => hns hc.2)]
      simp only [updateByKinde]
      rw [if_pos (applyTeamResult_kindeId env s).symm]
      rw [if_pos ⟨hst, List.mem_cons_self _ _⟩]
      rw [show (List.map (fun r =>
        if r.status = Status.success ∧ r.kindeId ∈ s.kindeId :: S then
          applyTeamResult env r else r) rest) =
        upgradeSet env (s.kindeId :: S) rest from rfl]
      rw [upgradeSet_skip env s.kindeId S rest hrn]
      rfl
    · have hs2 : s ∈ rest := by
        rcases List.mem_cons.mp hs with he | hm
        · exact absurd (congrArg (fun x => x.kindeId) he).symm hid
        · exact hm
      simp only [upgradeSet, List.map_cons]
      have hhead : (if r.status = Status.success ∧ r.kindeId ∈ S then
          applyTeamResult env r else r).kindeId = r.kindeId := by
        split
        · exact applyTeamResult_kindeId env r
        · rfl
      simp only [updateByKinde]
      rw [if_neg (by
        rw [hhead, applyTeamResult_kindeId]
        exact hid)]
      congr 1
      · by_cases hrs : r.status = Status.success ∧ r.kindeId ∈ S
        · rw [if_pos hrs, if_pos ⟨hrs.1, List.mem_cons_of_mem _ hrs.2⟩]
        · rw [if_neg hrs, if_neg]
          intro hc
          rcases List.mem_cons.mp hc.2 with he | hm
          · exact hid he
          · exact hrs ⟨hc.1, hm⟩
      · exact ih S s hnd2 hs2 hst hns

theorem foldl_updateByKinde_upgrade (env : Env) :
    ∀ (batch : List ProcessResult) (S : List String)
      (base : List ProcessResult),
      (base.map (fun r => r.kindeId)).Nodup →
      (∀ s ∈ batch, s ∈ base ∧ s.status = Status.success) →
      ((batch.map (fun r => r.kindeId)).Nodup) →
      (∀ s ∈ batch, s.kindeId ∉ S) →
      (batch.map (applyTeamResult env)).foldl
          (fun a u => updateByKinde u a) (upgradeSet env S base) =
        upgradeSet env (S ++ batch.map (fun r => r.kindeId)) base := by
  intro batch
  induction batch with
  | nil =>
    intro S base _ _ _ _
    simp
  | cons x xs ih =>
    intro S base hnd hb hbnd hdisj
    simp only [List.map_cons, List.foldl_cons]
    rw [updateByKinde_upgrade env base S x hnd (hb x (List.mem_cons_self x xs)).1
      (hb x (List.mem_cons_self x xs)).2 (hdisj x (List.mem_cons_self x xs))]
    rw [ih (x.kindeId :: S) base hnd
      (fun s hsx => hb s (List.mem_cons_of_mem x hsx))
      (List.nodup_cons.mp hbnd).2
      (fun s hsx hmem => by
        rcases List.mem_cons.mp hmem with he | hm
        · refine (List.nodup_cons.mp hbnd).1 ?_
          show x.kindeId ∈ xs.map (fun r => r.kindeId)
          rw [← he]
          exact List.mem_map_of_mem _ hsx
        · exact hdisj s (List.mem_cons_of_mem x hsx) hm)]
    refine upgradeSet_congr env _ _ base ?_
    intro y
    simp only [List.mem_cons, List.mem_append]
    tauto

theorem teamLoopGo_nil (env : Env) (B d : Nat) :
    ∀ fuel acc, teamLoopGo env B d fuel [] acc = (acc, []) := by
  intro fuel acc
  cases fuel <;> rfl

theorem teamLoopGo_fst (env : Env) (B d : Nat) (hB : 1 ≤ B)
    (base : List ProcessResult)
    (hnd : (base.map (fun r => r.kindeId)).Nodup) :
    ∀ fuel (l : List ProcessResult) (S : List String),
      l.length ≤ fuel →
      (∀ s ∈ l, s ∈ base ∧ s.status = Status.success) →
      ((l.map (fun r => r.kindeId)).Nodup) →
      (∀ s ∈ l, s.kindeId ∉ S) →
      (teamLoopGo env B d fuel l (upgradeSet env S base)).1 =
        upgradeSet env (S ++ l.map (fun r => r.kindeId)) base := by
  intro fuel
  induction fuel with
  | zero =>
    intro l S hl _ _ _
    have hnil := List.eq_nil_of_length_eq_zero (Nat.le_zero.mp hl)
    subst hnil
    simp [teamLoopGo]
  | succ fuel ih =>
    intro l S hl hel hlnd hdisj
    cases l with
    | nil => simp [teamLoopGo]
    | cons a l2 =>
      simp only [teamLoopGo]
      rw [foldl_updateByKinde_upgrade env ((a :: l2).take B) S base hnd
        (fun s hsx => hel s (List.mem_of_mem_take hsx))
        (by
          rw [List.map_take]
          exact (List.take_sublist B _).nodup hlnd)
        (fun s hsx => hdisj s (List.mem_of_mem_take hsx))]
      have hidsplit : ((a :: l2).map (fun r => r.kindeId)) =
          ((a :: l2).take B).map (fun r => r.kindeId) ++
            ((a :: l2).drop B).map (fun r => r.kindeId) := by
        rw [← List.map_append, List.take_append_drop]
      rw [ih ((a :: l2).drop B)
        (S ++ ((a :: l2).take B).map (fun r => r.kindeId))
        (by rw [List.length_drop]; simp only [List.length_cons] at hl ⊢; omega)
        (fun s hsx => hel s (List.mem_of_mem_drop hsx))
        (by
          rw [List.map_drop]
          exact (List.drop_sublist B _).nodup hlnd)
        (fun s hsx hmem => by
          rcases List.mem_append.mp hmem with hS | hT
          · exact hdisj s (List.mem_of_mem_drop hsx) hS
          · have hnd3 := hidsplit ▸ hlnd
            have hdisjoint := (List.nodup_append.mp hnd3).2.2
            exact hdisjoint hT (List.mem_map_of_mem _ hsx))]
      rw [List.append_assoc, ← List.map_append, List.take_append_drop]

theorem teamLoopGo_snd (env : Env) (B d : Nat) (hB : 1 ≤ B) :
    ∀ fuel (l : List ProcessResult) acc, l.length ≤ fuel →
      (teamLoopGo env B d fuel l acc).2 =
        List.intersperse (Event.wait d)
          ((chunksGo B fuel l).map
            (fun b => Event.teamBatch (b.map (fun r => r.kindeId)))) := by
  intro fuel
  induction fuel with
  | zero =>
    intro l acc hl
    have hnil := List.eq_nil_of_length_eq_zero (Nat.le_zero.mp hl)
    subst hnil
    rfl
  | succ fuel ih =>
    intro l acc hl
    cases l with
    | nil => rfl
    | cons a l2 =>
      simp only [teamLoopGo, chunksGo]
      by_cases hdrop : (a :: l2).drop B = []
      · rw [hdrop, teamLoopGo_nil, chunksGo_nil]
        simp [List.intersperse]
      · have hlen : ((a :: l2).drop B).length ≤ fuel := by
          rw [List.length_drop]
          simp only [List.length_cons] at hl ⊢
          omega
        rw [ih _ _ hlen]
        obtain ⟨x, xs, hx⟩ : ∃ x xs, (a :: l2).drop B = x :: xs := by
          cases hd : (a :: l2).drop B with
          | nil => exact absurd hd hdrop
          | cons x xs => exact ⟨x, xs, rfl⟩
        obtain ⟨f2, hf2⟩ : ∃ f2, fuel = f2 + 1 := by
          cases fuel with
          | zero =>
            rw [hx] at hlen
            simp at hlen
          | succ f2 => exact ⟨f2, rfl⟩
        rw [hx, hf2]
        simp only [chunksGo, List.map_cons]
        rw [intersperse_cons_cons]
        simp [hx]

theorem processTeamCreation_eq (env : Env) (results : List ProcessResult)
    (hnd : (results.map (fun r => r.kindeId)).Nodup) :
    processTeamCreation env results =
      (results.map (fun r =>
          if r.status = Status.success then applyTeamResult env r else r),
       if results.filter (fun r => r.status == Status.success) = [] then []
       else Event.wait 10000 ::
         List.intersperse (Event.wait 2000)
           ((chunksOf 3
              (results.filter (fun r => r.status == Status.success))).map
             (fun b => Event.teamBatch (b.map (fun r => r.kindeId))))) := by
  unfold processTeamCreation
  dsimp only
  by_cases hempty : results.filter (fun r => r.status == Status.success) = []
  · have hno : ∀ r ∈ results, ¬ r.status = Status.success := by
      intro r hr hstat
      have hmem : r ∈ results.filter (fun r => r.status == Status.success) :=
        List.mem_filter.mpr ⟨hr, by simp [hstat]⟩
      rw [hempty] at hmem
      exact absurd hmem (List.not_mem_nil r)
    have hmapid : results.map (fun r =>
        if r.status = Status.success then applyTeamResult env r else r) =
        results := by
      have h := List.map_congr_left
        (fun r hr => if_neg (hno r hr) :
          ∀ r ∈ results, (if r.status = Status.success then
            applyTeamResult env r else r) = r)
      rw [h, List.map_id']
    rw [hempty]
    simp [hmapid]
  · have helem : ∀ s ∈ results.filter (fun r => r.status == Status.success),
        s ∈ results ∧ s.status = Status.success := by
      intro s hs
      refine ⟨(List.mem_filter.mp hs).1, ?_⟩
      have hb := (List.mem_filter.mp hs).2
      exact eq_of_beq hb
    have hnd2 : ((results.filter
        (fun r => r.status == Status.success)).map
          (fun r => r.kindeId)).Nodup :=
      ((List.filter_sublist results).map (fun r => r.kindeId)).nodup hnd
    have h1 := teamLoopGo_fst env 3 2000 (by omega) results hnd
      (results.filter (fun r => r.status == Status.success)).length
      (results.filter (fun r => r.status == Status.success)) []
      le_rfl helem hnd2 (fun s _ hmem => absurd hmem (List.not_mem_nil _))
    rw [upgradeSet_nil_set] at h1
    have h2 : upgradeSet env
        ((results.filter (fun r => r.status == Status.success)).map
          (fun r => r.kindeId)) results =
        results.map (fun r =>
          if r.status = Status.success then applyTeamResult env r else r) := by
      unfold upgradeSet
      refine List.map_congr_left ?_
      intro r hr
      by_cases hstat : r.status = Status.success
      · rw [if_pos ⟨hstat, List.mem_map_of_mem _
          (List.mem_filter.mpr ⟨hr, by simp [hstat]⟩)⟩, if_pos hstat]
      · rw [if_neg (fun hc => hstat hc.1), if_neg hstat]
    have h3 := teamLoopGo_snd env 3 2000 (by omega)
      (results.filter (fun r => r.status == Status.success)).length
      (results.filter (fun r => r.status == Status.success)) results le_rfl
    have hbe : (results.filter
        (fun r => r.status == Status.success)).isEmpty = false := by
      cases hsn : results.filter (fun r => r.status == Status.success) with
      | nil => exact absurd hsn hempty
      | cons s ss => rfl
    rw [hbe]
    simp only [Bool.false_eq_true, if_false, if_neg hempty]
    refine Prod.ext ?_ ?_
    · show (teamLoopGo env 3 2000 _ _ results).1 = _
      rw [h1]
      rw [List.nil_append] at h1 ⊢
      exact h2
    · show Event.wait 10000 :: (teamLoopGo env 3 2000 _ _ results).2 = _
      rw [h3]
      rfl

/- ===========================================================
   Theorems: POST characterizations per mode
   =========================================================== -/

theorem stripe_map_kindeId (env : Env) (cs : List CustomerData) :
    (cs.map (processCustomerStripe env)).map (fun r => r.kindeId) =
      cs.map (fun c => c.kindeId) := by
  rw [List.map_map]
  exact List.map_congr_left (fun c _ => (processCustomerStripe_base env c).1)

theorem teams_map_kindeId (env : Env) (cs : List CustomerData) :
    (cs.map (processCustomerTeamsOnly env)).map (fun r => r.kindeId) =
      cs.map (fun c => c.kindeId) := by
  rw [List.map_map]
  exact List.map_congr_left (fun c _ => (processCustomerTeamsOnly_base env c).1)

theorem POST_teams_eq (env : Env) (cs : List CustomerData) :
    POST env Mode.teams_only (some cs) =
      (Except.ok (cs.map (processCustomerTeamsOnly env)),
       List.intersperse (Event.wait 2000)
         ((chunksOf 3 cs).map Event.batch)) := by
  unfold POST runBatches
  dsimp only
  rw [runBatchesGo_fst _ 3 2000 (by omega) cs.length cs le_rfl]
  rw [runBatchesGo_snd _ 3 2000 (by omega) cs.length cs le_rfl]
  rfl

theorem POST_stripe_eq (env : Env) (cs : List CustomerData) :
    POST env Mode.stripe_only (some cs) =
      (Except.ok (cs.map (processCustomerStripe env)),
       List.intersperse (Event.wait 1000)
         ((chunksOf 8 cs).map Event.batch)) := by
  unfold POST runBatches
  dsimp only
  rw [runBatchesGo_fst _ 8 1000 (by omega) cs.length cs le_rfl]
  rw [runBatchesGo_snd _ 8 1000 (by omega) cs.length cs le_rfl]
  rfl

theorem processTeamCreation_events (env : Env) (results : List ProcessResult) :
    (processTeamCreation env results).2 =
      if results.filter (fun r => r.status == Status.success) = [] then []
      else Event.wait 10000 ::
        List.intersperse (Event.wait 2000)
          ((chunksOf 3
              (results.filter (fun r => r.status == Status.success))).map
            (fun b => Event.teamBatch (b.map (fun r => r.kindeId)))) := by
  unfold processTeamCreation
  dsimp only
  by_cases hempty : results.filter (fun r => r.status == Status.success) = []
  · have hbe : (results.filter
        (fun r => r.status == Status.success)).isEmpty = true :=
      List.isEmpty_iff.mpr hempty
    rw [hbe, if_pos hempty]
    rfl
  · have hbe : (results.filter
        (fun r => r.status == Status.success)).isEmpty = false := by
      cases hsn : results.filter (fun r => r.status == Status.success) with
      | nil => exact absurd hsn hempty
      | cons s ss => rfl
    rw [hbe]
    simp only [Bool.false_eq_true, if_false, if_neg hempty]
    exact congrArg _ (teamLoopGo_snd env 3 2000 (by omega) _ _ results le_rfl)

theorem POST_both_eq (env : Env) (cs : List CustomerData)
    (hnd : (cs.map (fun c => c.kindeId)).Nodup) :
    POST env Mode.both (some cs) =
      (Except.ok ((cs.map (processCustomerStripe env)).map
          (fun r => if r.status = Status.success then applyTeamResult env r
            else r)),
       List.intersperse (Event.wait 1000) ((chunksOf 8 cs).map Event.batch) ++
         (if (cs.map (processCustomerStripe env)).filter
              (fun r => r.status == Status.success) = [] then []
          else Event.wait 10000 ::
            List.intersperse (Event.wait 2000)
              ((chunksOf 3 ((cs.map (processCustomerStripe env)).filter
                  (fun r => r.status == Status.success))).map
                (fun b => Event.teamBatch (b.map (fun r => r.kindeId)))))) := by
  have hnd1 : ((cs.map (processCustomerStripe env)).map
      (fun r => r.kindeId)).Nodup := by
    rw [stripe_map_kindeId]
    exact hnd
  unfold POST runBatches
  dsimp only
  rw [runBatchesGo_fst _ 8 1000 (by omega) cs.length cs le_rfl]
  rw [runBatchesGo_snd _ 8 1000 (by omega) cs.length cs le_rfl]
  rw [processTeamCreation_eq env _ hnd1]
  rfl

theorem POST_both_events (env : Env) (cs : List CustomerData) :
    (POST env Mode.both (some cs)).2 =
      List.intersperse (Event.wait 1000) ((chunksOf 8 cs).map Event.batch) ++
        (if (cs.map (processCustomerStripe env)).filter
             (fun r => r.status == Status.success) = [] then []
         else Event.wait 10000 ::
           List.intersperse (Event.wait 2000)
             ((chunksOf 3 ((cs.map (processCustomerStripe env)).filter
                 (fun r => r.status == Status.success))).map
               (fun b => Event.teamBatch (b.map (fun r => r.kindeId))))) := by
  unfold POST runBatches
  dsimp only
  rw [runBatchesGo_fst _ 8 1000 (by omega) cs.length cs le_rfl]
  rw [runBatchesGo_snd _ 8 1000 (by omega) cs.length cs le_rfl]
  rw [processTeamCreation_events env _]
  rfl

theorem post_full_outcome_list (env : Env) (mode : Mode)
    (cs : List CustomerData)
    (hnd : (cs.map (fun c => c.kindeId)).Nodup) :
    ∃ rs evs, POST env mode (some cs) = (Except.ok rs, evs) ∧
      rs.map (fun r => r.kindeId) = cs.map (fun c => c.kindeId) ∧
      rs.length = cs.length := by
  cases mode with
  | teams_only =>
    refine ⟨_, _, POST_teams_eq env cs, ?_, ?_⟩
    · exact teams_map_kindeId env cs
    · rw [List.length_map]
  | stripe_only =>
    refine ⟨_, _, POST_stripe_eq env cs, ?_, ?_⟩
    · exact stripe_map_kindeId env cs
    · rw [List.length_map]
  | both =>
    refine ⟨_, _, POST_both_eq env cs hnd, ?_, ?_⟩
    · rw [List.map_map]
      have hcong : ∀ r ∈ cs.map (processCustomerStripe env),
          ((fun r => r.kindeId) ∘ (fun r =>
            if r.status = Status.success then applyTeamResult env r else r)) r
            = (fun r => r.kindeId) r := by
        intro r _
        show (if r.status = Status.success then applyTeamResult env r
          else r).kindeId = r.kindeId
        split
        · exact applyTeamResult_kindeId env r
        · rfl
      rw [List.map_congr_left hcong, stripe_map_kindeId]
    · rw [List.length_map, List.length_map]

/-- C1.  For every syntactically valid request, in every mode, the
    orchestrator returns exactly one outcome per input record: the outcome
    list's `kindeId`s equal the input's `kindeId`s position by position (so
    nothing is duplicated, dropped or reordered, and the lengths agree),
    assuming `kindeId`s are unique within the run. -/
theorem post_outcomes_preserve_ids (env : Env) (mode : Mode)
    (cs : List CustomerData)
    (hnd : (cs.map (fun c => c.kindeId)).Nodup) :
    ∃ rs evs, POST env mode (some cs) = (Except.ok rs, evs) ∧
      rs.map (fun r => r.kindeId) = cs.map (fun c => c.kindeId) ∧
      rs.length = cs.length :=
  post_full_outcome_list env mode cs hnd

/-- C1 witness: five records in combined mode with mixed outcomes. -/
theorem post_outcomes_preserve_ids_witness :
    (([custW1, custW2, custW3, custW4, custW5].map
        (fun c => c.kindeId)).Nodup) ∧
    (∃ rs evs, POST envW Mode.both
        (some [custW1, custW2, custW3, custW4, custW5]) =
        (Except.ok rs, evs) ∧
      rs.map (fun r => r.kindeId) =
        [custW1, custW2, custW3, custW4, custW5].map (fun c => c.kindeId) ∧
      rs.length = [custW1, custW2, custW3, custW4, custW5].length) :=
  ⟨by decide, post_outcomes_preserve_ids envW Mode.both
    [custW1, custW2, custW3, custW4, custW5] (by decide)⟩

/-- C3.  In combined mode the orchestrator runs every billing batch to
    completion first; exactly when at least one record is
    billing-successful it emits the 10s propagation wait and then the team
    phase in batches of 3 over exactly the billing-successful subset; the
    final outcome list rewrites precisely the billing-successful records
    via the team step and returns every billing-failed record's outcome
    unchanged. -/
theorem post_both_two_phase (env : Env) (cs : List CustomerData)
    (hnd : (cs.map (fun c => c.kindeId)).Nodup) :
    POST env Mode.both (some cs) =
      (Except.ok ((cs.map (processCustomerStripe env)).map
          (fun r => if r.status = Status.success then applyTeamResult env r
            else r)),
       List.intersperse (Event.wait 1000) ((chunksOf 8 cs).map Event.batch) ++
         (if (cs.map (processCustomerStripe env)).filter
              (fun r => r.status == Status.success) = [] then []
          else Event.wait 10000 ::
            List.intersperse (Event.wait 2000)
              ((chunksOf 3 ((cs.map (processCustomerStripe env)).filter
                  (fun r => r.status == Status.success))).map
                (fun b => Event.teamBatch (b.map (fun r => r.kindeId)))))) :=
  POST_both_eq env cs hnd

/-- C3 witness: five records, three billing-successful, two
    `customer_not_found`. -/
theorem post_both_two_phase_witness :
    (([custW1, custW2, custW3, custW4, custW5].map
        (fun c => c.kindeId)).Nodup) ∧
    POST envW Mode.both (some [custW1, custW2, custW3, custW4, custW5]) =
      (Except.ok (([custW1, custW2, custW3, custW4, custW5].map
          (processCustomerStripe envW)).map
          (fun r => if r.status = Status.success then applyTeamResult envW r
            else r)),
       List.intersperse (Event.wait 1000)
         ((chunksOf 8 [custW1, custW2, custW3, custW4, custW5]).map
           Event.batch) ++
         (if ([custW1, custW2, custW3, custW4, custW5].map
              (processCustomerStripe envW)).filter
              (fun r => r.status == Status.success) = [] then []
          else Event.wait 10000 ::
            List.intersperse (Event.wait 2000)
              ((chunksOf 3 (([custW1, custW2, custW3, custW4,
                  custW5].map (processCustomerStripe envW)).filter
                  (fun r => r.status == Status.success))).map
                (fun b => Event.teamBatch (b.map (fun r => r.kindeId)))))) :=
  ⟨by decide, post_both_two_phase envW
    [custW1, custW2, custW3, custW4, custW5] (by decide)⟩

/-- C4.  In every mode the orchestrator's trace starts with the main loop:
    the batches are exactly the consecutive slices
    `[(k-1)*B, k*B)` of the input, `ceil(N/B)` of them, with `B = 3` in
    teams_only mode and `B = 8` otherwise, the mode's fixed inter-batch
    delay interspersed strictly between consecutive batches and not after
    the last; whatever follows the main loop contains no further main-loop
    batch dispatch. -/
theorem post_batching_deterministic (env : Env) (mode : Mode)
    (cs : List CustomerData) :
    ∃ rest,
      (POST env mode (some cs)).2 =
        List.intersperse
          (Event.wait (if mode = Mode.teams_only then 2000 else 1000))
          ((chunksOf (if mode = Mode.teams_only then 3 else 8) cs).map
            Event.batch) ++ rest ∧
      rest.all (fun e => !e.isBatch) = true ∧
      chunksOf (if mode = Mode.teams_only then 3 else 8) cs =
        (List.range
            ((cs.length + (if mode = Mode.teams_only then 3 else 8) - 1) /
              (if mode = Mode.teams_only then 3 else 8))).map
          (fun k => (cs.drop
            (k * (if mode = Mode.teams_only then 3 else 8))).take
            (if mode = Mode.teams_only then 3 else 8)) := by
  cases mode with
  | teams_only =>
    refine ⟨[], ?_, rfl, ?_⟩
    · rw [POST_teams_eq env cs]
      simp
    · simpa using chunksGo_eq_ranges 3 (by omega) cs.length cs le_rfl
  | stripe_only =>
    refine ⟨[], ?_, rfl, ?_⟩
    · rw [POST_stripe_eq env cs]
      simp
    · simpa using chunksGo_eq_ranges 8 (by omega) cs.length cs le_rfl
  | both =>
    refine ⟨(if (cs.map (processCustomerStripe env)).filter
        (fun r => r.status == Status.success) = [] then []
      else Event.wait 10000 ::
        List.intersperse (Event.wait 2000)
          ((chunksOf 3 ((cs.map (processCustomerStripe env)).filter
              (fun r => r.status == Status.success))).map
            (fun b => Event.teamBatch (b.map (fun r => r.kindeId))))),
      ?_, ?_, ?_⟩
    · rw [POST_both_events env cs]
      simp
    · by_cases hf : (cs.map (processCustomerStripe env)).filter
          (fun r => r.status == Status.success) = []
      · rw [if_pos hf]
        rfl
      · rw [if_neg hf, List.all_eq_true]
        intro e he
        rcases List.mem_cons.mp he with he1 | he2
        · rw [he1]
          rfl
        · rcases mem_intersperse _ _ _ he2 with hsep | hmem
          · rw [hsep]
            rfl
          · rcases List.mem_map.mp hmem with ⟨b, _, hb⟩
            rw [← hb]
            rfl
    · simpa using chunksGo_eq_ranges 8 (by omega) cs.length cs le_rfl

/-- C4 witness: seven records in teams_only mode (batch size 3). -/
theorem post_batching_deterministic_witness :
    ∃ rest,
      (POST envW Mode.teams_only
          (some [custW1, custW2, custW3, custW4, custW5])).2 =
        List.intersperse
          (Event.wait (if Mode.teams_only = Mode.teams_only then 2000
            else 1000))
          ((chunksOf (if Mode.teams_only = Mode.teams_only then 3 else 8)
              [custW1, custW2, custW3, custW4, custW5]).map
            Event.batch) ++ rest ∧
      rest.all (fun e => !e.isBatch) = true ∧
      chunksOf (if Mode.teams_only = Mode.teams_only then 3 else 8)
          [custW1, custW2, custW3, custW4, custW5] =
        (List.range
            (([custW1, custW2, custW3, custW4, custW5].length +
                (if Mode.teams_only = Mode.teams_only then 3 else 8) - 1) /
              (if Mode.teams_only = Mode.teams_only then 3 else 8))).map
          (fun k => ([custW1, custW2, custW3, custW4, custW5].drop
            (k * (if Mode.teams_only = Mode.teams_only then 3 else 8))).take
            (if Mode.teams_only = Mode.teams_only then 3 else 8)) :=
  post_batching_deterministic envW Mode.teams_only
    [custW1, custW2, custW3, custW4, custW5]

/-- C9.  A request whose `customers` field is missing or not an array is
    rejected with the single 400 error object before anything is
    dispatched (the trace is empty); and for every well-formed input, in
    every mode, the run always returns a full result list — one outcome
    per record — no matter how many per-record steps fail, assuming unique
    `kindeId`s. -/
theorem post_rejects_malformed (env : Env) (mode : Mode) :
    POST env mode none = (Except.error (400, "Invalid customers data"), []) ∧
    (∀ cs : List CustomerData, (cs.map (fun c => c.kindeId)).Nodup →
      ∃ rs evs, POST env mode (some cs) = (Except.ok rs, evs) ∧
        rs.length = cs.length) := by
  refine ⟨rfl, ?_⟩
  intro cs hnd
  obtain ⟨rs, evs, hpost, _, hlen⟩ :=
    post_full_outcome_list env mode cs hnd
  exact ⟨rs, evs, hpost, hlen⟩

/-- C9 witness: the 400 rejection and a successful two-record run. -/
theorem post_rejects_malformed_witness :
    (POST envW Mode.both none =
      (Except.error (400, "Invalid customers data"), []) ∧
    (∀ cs : List CustomerData, (cs.map (fun c => c.kindeId)).Nodup →
      ∃ rs evs, POST envW Mode.both (some cs) = (Except.ok rs, evs) ∧
        rs.length = cs.length)) :=
  post_rejects_malformed envW Mode.both

/-- C2 counterexample.  In teams_only mode a failing team endpoint yields
    an outcome with `status = team_creation_failed` whose `customerId` and
    `subscriptionId` are both absent — no billing step exists in that mode
    — so the claimed implication fails in "any processing mode". -/
theorem post_team_failed_no_billing_refs_cex :
    POST envTeamFailW Mode.teams_only (some [custW1]) =
      (Except.ok [rFailTeamsW], [Event.batch [custW1]]) ∧
    rFailTeamsW.status = Status.team_creation_failed ∧
    rFailTeamsW.customerId = none ∧
    rFailTeamsW.subscriptionId = none :=
  ⟨rfl, rfl, rfl, rfl⟩

/-- C2 (amended).  For every outcome of a run with unique `kindeId`s:
    in the modes with a billing phase (stripe_only and both),
    `team_creation_failed` implies `customerId` and `subscriptionId` are
    both populated; in every mode, a status in {customer_not_found,
    cancel_failed, subscription_failed} implies `teamId` is absent and the
    record is never passed to a phase-2 team batch; in teams_only mode
    those three statuses cannot occur at all (but `team_creation_failed`
    there carries no billing refs). -/
theorem post_status_field_invariants (env : Env) (mode : Mode)
    (cs : List CustomerData) (rs : List ProcessResult) (evs : List Event)
    (r : ProcessResult)
    (hnd : (cs.map (fun c => c.kindeId)).Nodup)
    (hpost : POST env mode (some cs) = (Except.ok rs, evs))
    (hr : r ∈ rs) :
    ((mode = Mode.stripe_only ∨ mode = Mode.both) →
      r.status = Status.team_creation_failed →
      r.customerId.isSome = true ∧ r.subscriptionId.isSome = true) ∧
    ((r.status = Status.customer_not_found ∨
        r.status = Status.cancel_failed ∨
        r.status = Status.subscription_failed) →
      r.teamId = none) ∧
    (mode = Mode.teams_only →
      r.status = Status.success ∨
        r.status = Status.team_creation_failed) ∧
    ((r.status = Status.customer_not_found ∨
        r.status = Status.cancel_failed ∨
        r.status = Status.subscription_failed) →
      ∀ ids, Event.teamBatch ids ∈ evs → r.kindeId ∉ ids) := by
  cases mode with
  | stripe_only =>
    have heq := POST_stripe_eq env cs
    rw [hpost] at heq
    have hrs : rs = cs.map (processCustomerStripe env) := by
      have h := congrArg Prod.fst heq
      simpa using h
    have hevs : evs = List.intersperse (Event.wait 1000)
        ((chunksOf 8 cs).map Event.batch) := by
      have h := congrArg Prod.snd heq
      simpa using h
    subst hrs
    subst hevs
    obtain ⟨c, hc, hrc⟩ := List.mem_map.mp hr
    subst hrc
    refine ⟨?_, ?_, ?_, ?_⟩
    · intro _ htcf
      exact absurd htcf (processCustomerStripe_base env c).2.2.2.2
    · intro _
      exact (processCustomerStripe_base env c).2.2.2.1
    · intro hm
      exact absurd hm (by simp)
    · intro _ ids hmem
      rcases mem_intersperse _ _ _ hmem with hsep | hin
      · exact absurd hsep (by simp)
      · rcases List.mem_map.mp hin with ⟨b, _, hb⟩
        exact absurd hb (by simp)
  | teams_only =>
    have heq := POST_teams_eq env cs
    rw [hpost] at heq
    have hrs : rs = cs.map (processCustomerTeamsOnly env) := by
      have h := congrArg Prod.fst heq
      simpa using h
    have hevs : evs = List.intersperse (Event.wait 2000)
        ((chunksOf 3 cs).map Event.batch) := by
      have h := congrArg Prod.snd heq
      simpa using h
    subst hrs
    subst hevs
    obtain ⟨c, hc, hrc⟩ := List.mem_map.mp hr
    subst hrc
    refine ⟨?_, ?_, ?_, ?_⟩
    · intro hm
      rcases hm with h | h <;> exact absurd h (by simp)
    · intro hst
      exfalso
      rcases (processCustomerTeamsOnly_base env c).2.2.2 with hs | hs <;>
        rcases hst with h | h | h <;> rw [h] at hs <;>
          exact Status.noConfusion hs
    · intro _
      exact (processCustomerTeamsOnly_base env c).2.2.2
    · intro hst
      exfalso
      rcases (processCustomerTeamsOnly_base env c).2.2.2 with hs | hs <;>
        rcases hst with h | h | h <;> rw [h] at hs <;>
          exact Status.noConfusion hs
  | both =>
    have heq := POST_both_eq env cs hnd
    rw [hpost] at heq
    have hrs : rs = (cs.map (processCustomerStripe env)).map
        (fun r => if r.status = Status.success then applyTeamResult env r
          else r) := by
      have h := congrArg Prod.fst heq
      simpa using h
    have hevs : evs =
        List.intersperse (Event.wait 1000)
          ((chunksOf 8 cs).map Event.batch) ++
        (if (cs.map (processCustomerStripe env)).filter
             (fun r => r.status == Status.success) = [] then []
         else Event.wait 10000 ::
           List.intersperse (Event.wait 2000)
             ((chunksOf 3 ((cs.map (processCustomerStripe env)).filter
                 (fun r => r.status == Status.success))).map
               (fun b => Event.teamBatch (b.map (fun r => r.kindeId))))) := by
      have h := congrArg Prod.snd heq
      simpa using h
    subst hrs
    subst hevs
    obtain ⟨p, hp, hrp⟩ := List.mem_map.mp hr
    obtain ⟨c, hc, hpc⟩ := List.mem_map.mp hp
    subst hpc
    by_cases hps : (processCustomerStripe env c).status = Status.success
    · rw [if_pos hps] at hrp
      subst hrp
      refine ⟨?_, ?_, ?_, ?_⟩
      · intro _ _
        constructor
        · rw [(applyTeamResult_fields env (processCustomerStripe env c)).2.1]
          exact (processCustomerStripe_success_refs env c hps).1
        · rw [(applyTeamResult_fields env
            (processCustomerStripe env c)).2.2.1]
          exact (processCustomerStripe_success_refs env c hps).2
      · intro hst
        exfalso
        rcases (applyTeamResult_fields env
            (processCustomerStripe env c)).2.2.2 with hs | hs <;>
          rcases hst with h | h | h <;> rw [h] at hs <;>
            exact Status.noConfusion hs
      · intro hm
        exact absurd hm (by simp)
      · intro hst
        exfalso
        rcases (applyTeamResult_fields env
            (processCustomerStripe env c)).2.2.2 with hs | hs <;>
          rcases hst with h | h | h <;> rw [h] at hs <;>
            exact Status.noConfusion hs
    · rw [if_neg hps] at hrp
      subst hrp
      refine ⟨?_, ?_, ?_, ?_⟩
      · intro _ htcf
        exact absurd htcf (processCustomerStripe_base env c).2.2.2.2
      · intro _
        exact (processCustomerStripe_base env c).2.2.2.1
      · intro hm
        exact absurd hm (by simp)
      · intro _ ids hmem
        rcases List.mem_append.mp hmem with h1 | h2
        · rcases mem_intersperse _ _ _ h1 with hsep | hin
          · exact absurd hsep (by simp)
          · rcases List.mem_map.mp hin with ⟨b, _, hb⟩
            exact absurd hb (by simp)
        · by_cases hf : (cs.map (processCustomerStripe env)).filter
              (fun x => x.status == Status.success) = []
          · rw [if_pos hf] at h2
            exact absurd h2 (List.not_mem_nil _)
          · rw [if_neg hf] at h2
            rcases List.mem_cons.mp h2 with hw | h3
            · exact absurd hw (by simp)
            · rcases mem_intersperse _ _ _ h3 with hsep | hin
              · exact absurd hsep (by simp)
              · rcases List.mem_map.mp hin with ⟨b, hbmem, hb⟩
                have hids : ids = b.map (fun r => r.kindeId) := by
                  have hb2 : Event.teamBatch (b.map (fun r => r.kindeId)) =
                      Event.teamBatch ids := hb
                  injection hb2 with h
                  exact h.symm
                intro hrin
                rw [hids] at hrin
                rcases List.mem_map.mp hrin with ⟨s, hsb, hsid⟩
                have hsfil : s ∈ (cs.map (processCustomerStripe env)).filter
                    (fun x => x.status == Status.success) :=
                  chunksGo_sub 3 _ _ b hbmem s hsb
                have hsmem := (List.mem_filter.mp hsfil).1
                have hsstat : s.status = Status.success :=
                  eq_of_beq (List.mem_filter.mp hsfil).2
                have hphase1nd : ((cs.map (processCustomerStripe env)).map
                    (fun x => x.kindeId)).Nodup := by
                  rw [stripe_map_kindeId]
                  exact hnd
                have heqsc : s = processCustomerStripe env c :=
                  List.inj_on_of_nodup_map hphase1nd hsmem
                    (List.mem_map_of_mem _ hc) (by rw [hsid])
                rw [heqsc] at hsstat
                exact hps hsstat

/-- C2 witness: one record, combined mode, all steps succeeding. -/
theorem post_status_field_invariants_witness :
    (([custW1].map (fun c => c.kindeId)).Nodup ∧
      POST envW Mode.both (some [custW1]) =
        (Except.ok [rOkW],
         [Event.batch [custW1], Event.wait 10000, Event.teamBatch ["k1"]]) ∧
      rOkW ∈ [rOkW]) ∧
    (((Mode.both = Mode.stripe_only ∨ Mode.both = Mode.both) →
      rOkW.status = Status.team_creation_failed →
      rOkW.customerId.isSome = true ∧ rOkW.subscriptionId.isSome = true) ∧
    ((rOkW.status = Status.customer_not_found ∨
        rOkW.status = Status.cancel_failed ∨
        rOkW.status = Status.subscription_failed) →
      rOkW.teamId = none) ∧
    (Mode.both = Mode.teams_only →
      rOkW.status = Status.success ∨
        rOkW.status = Status.team_creation_failed) ∧
    ((rOkW.status = Status.customer_not_found ∨
        rOkW.status = Status.cancel_failed ∨
        rOkW.status = Status.subscription_failed) →
      ∀ ids, Event.teamBatch ids ∈
          [Event.batch [custW1], Event.wait 10000, Event.teamBatch ["k1"]] →
        rOkW.kindeId ∉ ids)) :=
  ⟨⟨by decide, rfl, by decide⟩,
   post_status_field_invariants envW Mode.both [custW1] [rOkW]
     [Event.batch [custW1], Event.wait 10000, Event.teamBatch ["k1"]] rOkW
     (by decide) rfl (by decide)⟩
